import Mathlib

/-!
Verification of the server-monitoring plugin (handler.py and
server_monitoring.py): a shallow embedding of the health-check handler,
the administrative actions, the registry loader, and the spec-described
state tracker, with theorems settling the specification claims.
-/

namespace Mon

/-! ## Python string primitives

Models of the Python built-in string operations used by the source:
str.lower, str.upper, str.strip, the substring operator (needle in hay)
and int(str) for plain decimal literals. Only ASCII case mapping is
modelled, which covers every string the source compares against. -/

/-- ASCII lower-casing of one character, as Python lower does on ASCII. -/
def asciiLower (c : Char) : Char :=
  if 'A' ≤ c ∧ c ≤ 'Z' then Char.ofNat (c.toNat + 32) else c

/-- ASCII upper-casing of one character, as Python upper does on ASCII. -/
def asciiUpper (c : Char) : Char :=
  if 'a' ≤ c ∧ c ≤ 'z' then Char.ofNat (c.toNat - 32) else c

/-- Model of Python str.lower restricted to ASCII. -/
def pyLower (s : String) : String := String.mk (s.toList.map asciiLower)

/-- Model of Python str.upper restricted to ASCII. -/
def pyUpper (s : String) : String := String.mk (s.toList.map asciiUpper)

/-- Whitespace characters removed by Python str.strip. -/
def isSpaceChar (c : Char) : Bool :=
  c = ' ' || c = '\t' || c = '\n' || c = '\r'

/-- Model of Python str.strip: drop whitespace at both ends. -/
def pyStrip (s : String) : String :=
  String.mk (((s.toList.dropWhile isSpaceChar).reverse.dropWhile isSpaceChar).reverse)

/-- Does the list begin with the given pattern? -/
def listStarts : List Char → List Char → Bool
  | _, [] => true
  | [], _ :: _ => false
  | c :: cs, d :: ds => c = d && listStarts cs ds

/-- Does the pattern occur contiguously somewhere in the list? -/
def occursIn (needle : List Char) : List Char → Bool
  | [] => listStarts [] needle
  | c :: cs => listStarts (c :: cs) needle || occursIn needle cs

/-- Model of the Python substring test: needle in hay. -/
def pyIn (needle hay : String) : Bool := occursIn needle.toList hay.toList

/-- Accumulator loop reading decimal digits; any non-digit fails. -/
def natDigitsGo : List Char → Nat → Option Nat
  | [], acc => some acc
  | c :: cs, acc =>
      if c.isDigit then natDigitsGo cs (acc * 10 + (c.toNat - '0'.toNat)) else none

/-- Reads a non-empty all-digit list as a natural number. -/
def natDigits : List Char → Option Nat
  | [] => none
  | cs => natDigitsGo cs 0

/-- Model of Python int(str) for plain decimal literals with an optional
sign: none models the ValueError int raises on unparsable input. -/
def pyInt (s : String) : Option Int :=
  match s.toList with
  | '+' :: rest => (natDigits rest).map (fun n => (n : Int))
  | '-' :: rest => (natDigits rest).map (fun n => -(n : Int))
  | cs => (natDigits cs).map (fun n => (n : Int))

/-! ## Data model

A stored server configuration (a Python dict in the source). The dict
keys name, type, host, port, url are modelled as fields; an absent url
or host is the empty string (matching the .get defaults in
handler.py:43-47), an absent port is none, and the type key is stored
raw (the handler lower-cases it at check time). -/

structure Server where
  name : String
  ctype : String
  host : String
  port : Option Int
  url : String
deriving DecidableEq, Repr

/-- The per-target result dict built by MonitoringHandler._check_server
(handler.py:49): keys name, host, type, online, plus error when the
probe raised. -/
structure CheckResult where
  name : String
  host : String
  ctype : String
  online : Bool
  error : Option String
deriving DecidableEq, Repr

/-- The I/O environment of one polling pass. pingRun models the
subprocess.run of the ping command in _check_ping (handler.py:72):
ok rc is a completed process with that returncode, error models
TimeoutExpired or any other exception. httpGet models requests.get in
_check_http (handler.py:84): ok n is a response with status code n,
error models a transport-level exception (timeout, connection refused,
DNS failure). -/
structure Env where
  pingRun : String → Except String Int
  httpGet : String → Except String Nat

/-! ## Handler probes (handler.py) -/

/-- MonitoringHandler._check_ping (handler.py:65-77): empty host is
immediately false; otherwise reachable iff the ping process completes
with returncode 0; any exception is caught and yields false. -/
def checkPing (pingRun : String → Except String Int) (host : String) : Bool :=
  if host = "" then false
  else
    match pingRun host with
    | Except.ok rc => rc == 0
    | Except.error _ => false

/-- MonitoringHandler._check_http (handler.py:79-87): empty url is
immediately false; otherwise reachable iff a response arrives with
status code strictly below 500; any exception is caught and yields
false. -/
def checkHttp (httpGet : String → Except String Nat) (url : String) : Bool :=
  if url = "" then false
  else
    match httpGet url with
    | Except.ok status => decide (status < 500)
    | Except.error _ => false

/-- The target_url computation in _check_server (handler.py:53-55):
url or a synthesized scheme://host, with :port appended only when the
port value is truthy (nonzero). -/
def targetUrl (ct host : String) (port : Option Int) (url : String) : String :=
  match port with
  | some p =>
      if p ≠ 0 then (if url ≠ "" then url else ct ++ "://" ++ host ++ ":" ++ toString p)
      else (if url ≠ "" then url else ct ++ "://" ++ host)
  | none => if url ≠ "" then url else ct ++ "://" ++ host

/-- The body of the try block in _check_server (handler.py:52-58): http
and https dispatch to the HTTP checker on target_url, every other
check_type (including ssh) falls to the else branch and is pinged.
The result is wrapped in Except because the surrounding try/except
treats it as a computation that may raise; this concrete dispatch never
does, since both checkers catch internally. -/
def dispatch (env : Env) (s : Server) : Except String Bool :=
  let ct := pyLower s.ctype
  if ct = "http" ∨ ct = "https" then
    Except.ok (checkHttp env.httpGet (targetUrl ct s.host s.port s.url))
  else
    Except.ok (checkPing env.pingRun s.host)

/-- MonitoringHandler._check_server (handler.py:41-63), parameterized by
the try-block body check: the result starts offline, the try block sets
online on success, and any raised exception is caught, leaving online
false and recording the message under error. -/
def checkServer (check : Server → Except String Bool) (s : Server) : CheckResult :=
  match check s with
  | Except.ok b =>
      { name := s.name, host := s.host, ctype := pyLower s.ctype, online := b, error := none }
  | Except.error e =>
      { name := s.name, host := s.host, ctype := pyLower s.ctype, online := false, error := some e }

/-- MonitoringHandler.check_all (handler.py:34-39): one result per
server, appended in input order. -/
def checkAll (check : Server → Except String Bool) (servers : List Server) : List CheckResult :=
  servers.map (checkServer check)

/-! ## Query routing (handler.py handle) -/

/-- Which check MonitoringHandler.handle performs: a single named
server, or all of them. -/
inductive HandleAction where
  | single (s : Server)
  | all
deriving DecidableEq, Repr

/-- The target-selection loop of MonitoringHandler.handle
(handler.py:19-32): the first server whose lower-cased, non-empty name
occurs in the lower-cased input text is checked alone; with no match
every server is checked. -/
def handleRoute (text : String) : List Server → HandleAction
  | [] => HandleAction.all
  | s :: rest =>
      if pyLower s.name ≠ "" ∧ pyIn (pyLower s.name) (pyLower text) = true then
        HandleAction.single s
      else handleRoute text rest

/-! ## Registry loading (server_monitoring.py _load_servers) -/

/-- A parsed JSON-ish Python value, distinguished only as far as
_load_servers inspects it: a list of elements, or anything else. -/
inductive PyVal where
  | plist (xs : List PyVal)
  | other

/-- The quote-stripping step of _load_servers (server_monitoring.py:
279-281): when the raw value has length at least two and is wrapped in
matching single or double quotes, drop the first and last character. -/
def stripQuotes (raw : String) : String :=
  let cs := raw.toList
  if 2 ≤ cs.length ∧
      ((cs.head? = some '\'' ∧ cs.getLast? = some '\'') ∨
       (cs.head? = some '"' ∧ cs.getLast? = some '"')) then
    String.mk ((cs.drop 1).dropLast)
  else raw

/-- ServerMonitoringPlugin._load_servers (server_monitoring.py:275-287),
parameterized by loads, the json.loads oracle (error models the
JSONDecodeError it raises on malformed input). A missing env value
defaults to the two-character string composed of the open and close
bracket, an empty string parses to the empty list, a parse failure is
caught and degrades to the empty list, and a parsed value that is not a
list is replaced by the empty list. -/
def loadServers (loads : String → Except String PyVal) (rawOpt : Option String) :
    List PyVal :=
  let raw := stripQuotes (rawOpt.getD "[]")
  let servers : PyVal :=
    if raw = "" then PyVal.plist []
    else
      match loads raw with
      | Except.ok v => v
      | Except.error _ => PyVal.plist []
  match servers with
  | PyVal.plist xs => xs
  | PyVal.other => []

/-! ## Administrative actions (server_monitoring.py) -/

/-- The dict a request handler receives: each field is the raw string
from the client, or none when absent (dict.get default applies). -/
structure ReqData where
  name : Option String := none
  rtype : Option String := none
  host : Option String := none
  port : Option String := none
  url : Option String := none
deriving DecidableEq

/-- data.get with default and strip, as at server_monitoring.py:173. -/
def ReqData.nameV (d : ReqData) : String := pyStrip (d.name.getD "")

/-- data.get("type", "ping").strip().lower(), server_monitoring.py:174. -/
def ReqData.typeV (d : ReqData) : String := pyLower (pyStrip (d.rtype.getD "ping"))

/-- data.get with default and strip, as at server_monitoring.py:175. -/
def ReqData.hostV (d : ReqData) : String := pyStrip (d.host.getD "")

/-- data.get with default and strip, as at server_monitoring.py:176. -/
def ReqData.portV (d : ReqData) : String := pyStrip (d.port.getD "")

/-- data.get with default and strip, as at server_monitoring.py:177. -/
def ReqData.urlV (d : ReqData) : String := pyStrip (d.url.getD "")

/-- The response dict of an administrative action: a validation error
dict, a success dict carrying the built or removed server, or a raw
check-result dict from the test action. -/
inductive Resp where
  | err (msg : String)
  | okServer (s : Server)
  | okRemoved (s : Server)
  | okCheck (r : CheckResult)
deriving DecidableEq

/-- What an action hands back to the route plus its persistence effect:
saved is the list passed to _save_servers, or none when the action
returned without saving. -/
structure ActionOut where
  resp : Resp
  saved : Option (List Server)
deriving DecidableEq

/-- The server-dict construction at server_monitoring.py:188-192 and
236-240: keys name, type, host always; port only when the port string
is truthy, parsed by int() whose ValueError (modelled by the error
branch) propagates uncaught; url only when truthy. In the Server model
an absent url is the empty string and an absent port is none. -/
def buildServer (name ct host port url : String) : Except String Server :=
  if port ≠ "" then
    match pyInt port with
    | some n => Except.ok { name := name, ctype := ct, host := host, port := some n, url := url }
    | none => Except.error ("invalid literal for int() with base 10: " ++ port)
  else Except.ok { name := name, ctype := ct, host := host, port := none, url := url }

/-- ServerMonitoringPlugin._action_add_server (server_monitoring.py:
172-197): validation in source order, then the built server is appended
to the stored list and saved. The outer Except models an exception
escaping the action (the uncaught int() ValueError). -/
def actionAddServer (stored : List Server) (d : ReqData) : Except String ActionOut :=
  if d.nameV = "" then
    Except.ok ⟨Resp.err "Server name is required", none⟩
  else if (d.typeV = "http" ∨ d.typeV = "https") ∧ d.urlV = "" then
    Except.ok ⟨Resp.err "URL is required for HTTP(S)", none⟩
  else if (d.typeV = "ping" ∨ d.typeV = "ssh") ∧ d.hostV = "" then
    Except.ok ⟨Resp.err ("Host is required for " ++ pyUpper d.typeV), none⟩
  else if ¬(d.typeV = "ping" ∨ d.typeV = "http" ∨ d.typeV = "https" ∨ d.typeV = "ssh") then
    Except.ok ⟨Resp.err "Type must be ping, http, https, or ssh", none⟩
  else
    match buildServer d.nameV d.typeV d.hostV d.portV d.urlV with
    | Except.error e => Except.error e
    | Except.ok s => Except.ok ⟨Resp.okServer s, some (stored ++ [s])⟩

/-- ServerMonitoringPlugin._action_delete_server (server_monitoring.py:
199-206): out-of-range index is a structured error with no save,
otherwise the entry is popped and the shortened list saved. -/
def actionDeleteServer (stored : List Server) (index : Int) : Except String ActionOut :=
  if index < 0 ∨ (stored.length : Int) ≤ index then
    Except.ok ⟨Resp.err "Invalid server index", none⟩
  else
    match stored.get? index.toNat with
    | some removed => Except.ok ⟨Resp.okRemoved removed, some (stored.eraseIdx index.toNat)⟩
    | none => Except.ok ⟨Resp.err "Invalid server index", none⟩

/-- ServerMonitoringPlugin._action_test_server (server_monitoring.py:
208-214): out-of-range index is a structured error; otherwise the
selected server is probed once and the raw result returned, with no
save in either case. -/
def actionTestServer (check : Server → Except String Bool) (stored : List Server)
    (index : Int) : Except String ActionOut :=
  if index < 0 ∨ (stored.length : Int) ≤ index then
    Except.ok ⟨Resp.err "Invalid server index", none⟩
  else
    match stored.get? index.toNat with
    | some s => Except.ok ⟨Resp.okCheck (checkServer check s), none⟩
    | none => Except.ok ⟨Resp.err "Invalid server index", none⟩

/-- ServerMonitoringPlugin._action_update_server (server_monitoring.py:
216-245): index guard first, then validation identical to the add
action, then the built server replaces the indexed entry and the list
is saved. -/
def actionUpdateServer (stored : List Server) (index : Int) (d : ReqData) :
    Except String ActionOut :=
  if index < 0 ∨ (stored.length : Int) ≤ index then
    Except.ok ⟨Resp.err "Invalid server index", none⟩
  else if d.nameV = "" then
    Except.ok ⟨Resp.err "Server name is required", none⟩
  else if (d.typeV = "http" ∨ d.typeV = "https") ∧ d.urlV = "" then
    Except.ok ⟨Resp.err "URL is required for HTTP(S)", none⟩
  else if (d.typeV = "ping" ∨ d.typeV = "ssh") ∧ d.hostV = "" then
    Except.ok ⟨Resp.err ("Host is required for " ++ pyUpper d.typeV), none⟩
  else if ¬(d.typeV = "ping" ∨ d.typeV = "http" ∨ d.typeV = "https" ∨ d.typeV = "ssh") then
    Except.ok ⟨Resp.err "Type must be ping, http, https, or ssh", none⟩
  else
    match buildServer d.nameV d.typeV d.hostV d.portV d.urlV with
    | Except.error e => Except.error e
    | Except.ok s => Except.ok ⟨Resp.okServer s, some (stored.set index.toNat s)⟩

/-! ## State tracker and alerting

The plugin calls get_alerts, get_full_status and update_servers on its
handler (server_monitoring.py:144, 250, 293), but the handler module in
the repository is the older variant without them, so the tracker is
modelled from the specification. -/

/-- Modelled from the spec: the AlertEvent record of section 3, produced
by the get_alerts method missing from the repository handler. -/
structure AlertEvent where
  name : String
  previous : Bool
  current : Bool
  message : String
deriving DecidableEq, Repr

/-- Modelled from the spec: the alert message, a declarative sentence of
the form name went offline or name went online (section 4.3). -/
def mkMessage (name : String) (current : Bool) : String :=
  name ++ " went " ++ (if current then "online" else "offline")

/-- Modelled from the spec: the State Tracker store, last-seen online
state keyed by target name (section 3 TargetState). -/
abbrev States := List (String × Bool)

/-- Lookup of the stored state for a name. -/
def lookupState : States → String → Option Bool
  | [], _ => none
  | (k, b) :: rest, n => if k = n then some b else lookupState rest n

/-- Store a state for a name, overwriting an existing entry. -/
def setState : States → String → Bool → States
  | [], n, b => [(n, b)]
  | (k, c) :: rest, n, b =>
      if k = n then (n, b) :: rest else (k, c) :: setState rest n b

/-- Modelled from the spec: the per-result comparison of get_alerts
(section 4.3). No prior state emits nothing; a prior state equal to the
current verdict emits nothing; a differing prior state emits one
AlertEvent. -/
def alertOf (st : States) (r : CheckResult) : Option AlertEvent :=
  match lookupState st r.name with
  | none => none
  | some p =>
      if p = r.online then none
      else some { name := r.name, previous := p, current := r.online,
                  message := mkMessage r.name r.online }

/-- Modelled from the spec: the pass over the check results, emitting
alerts per alertOf and overwriting each stored state with the current
verdict (section 4.3). -/
def getAlertsAux (st : States) : List CheckResult → List AlertEvent × States
  | [] => ([], st)
  | r :: rs =>
      let rest := getAlertsAux (setState st r.name r.online) rs
      (match alertOf st r with
       | some a => a :: rest.1
       | none => rest.1, rest.2)

/-- The transition-aware handler state: the registry view plus the
State Tracker store. -/
structure Handler where
  servers : List Server
  states : States

/-- Modelled from the spec: get_alerts (section 4.3) runs check_all
over the registry and derives alert events from transitions, returning
the events and the updated handler. -/
def getAlerts (env : Env) (h : Handler) : List AlertEvent × Handler :=
  let results := checkAll (dispatch env) h.servers
  let out := getAlertsAux h.states results
  (out.1, { servers := h.servers, states := out.2 })

/-- Modelled from the spec: update_servers (section 4.3) replaces the
registry view in place without touching the State Tracker store. -/
def update_servers (h : Handler) (ts : List Server) : Handler :=
  { servers := ts, states := h.states }

/-! ## Helper lemmas -/

theorem checkServer_name (check : Server → Except String Bool) (s : Server) :
    (checkServer check s).name = s.name := by
  cases h : check s <;> simp [checkServer, h]

theorem checkServer_ext {check check₂ : Server → Except String Bool} {s : Server}
    (h : check₂ s = check s) : checkServer check₂ s = checkServer check s := by
  simp [checkServer, h]

/-! ## Claim theorems -/

/-- C2: the specification says a target with check type ssh is probed by
attempting a TCP connection to host:port. In the repository handler the
dispatch in _check_server (handler.py:52-58) has no ssh branch: every
check type other than http and https, ssh included, falls into the else
branch and is handed to the ICMP ping checker with the bare host, the
configured port ignored. This theorem exhibits that routing. -/
theorem c2_ssh_routed_to_ping (env : Env) (s : Server)
    (hct : pyLower s.ctype = "ssh") :
    dispatch env s = Except.ok (checkPing env.pingRun s.host) ∧
    (checkServer (dispatch env) s).online = checkPing env.pingRun s.host := by
  have hcond : ¬(pyLower s.ctype = "http" ∨ pyLower s.ctype = "https") := by
    rw [hct]; rintro (h | h) <;> exact absurd h (by decide)
  constructor
  · simp only [dispatch, if_neg hcond]
  · simp only [checkServer, dispatch, if_neg hcond]

/-- Failing input for C2: an ssh target on a host that drops ICMP echo
(the ping subprocess times out) but would accept a TCP connection on
port 2222. The handler reports it offline because it pings instead of
connecting. -/
def s2fail : Server := { name := "backup", ctype := "ssh", host := "10.0.0.5",
                         port := some 2222, url := "" }

/-- Environment for the C2 failing input: every ping attempt raises a
timeout. No TCP-connect capability exists anywhere in the handler. -/
def e2fail : Env := ⟨fun _ => Except.error "timeout", fun _ => Except.error "unused"⟩

theorem c2_ssh_routed_to_ping_witness :
    dispatch e2fail s2fail = Except.ok (checkPing e2fail.pingRun s2fail.host) ∧
    (checkServer (dispatch e2fail) s2fail).online = false := by
  have h := c2_ssh_routed_to_ping e2fail s2fail (by decide)
  exact ⟨h.1, by rw [h.2]; rfl⟩

/-- C3: check_all (handler.py:34-39) returns exactly one result per
server in input order; a server whose check raises yields online false
with the message recorded under error; and each position's result
depends only on that position's own check, so one target raising leaves
every other result unaffected. -/
theorem c3_check_all_fault_isolation (check : Server → Except String Bool)
    (servers : List Server) :
    (checkAll check servers).length = servers.length ∧
    (∀ i : Nat, (checkAll check servers)[i]? = servers[i]?.map (checkServer check)) ∧
    (∀ s e, check s = Except.error e →
      checkServer check s = { name := s.name
                              host := s.host
                              ctype := pyLower s.ctype
                              online := false
                              error := some e }) ∧
    (∀ (check₂ : Server → Except String Bool) (j : Nat) (s : Server),
      servers[j]? = some s → check₂ s = check s →
      (checkAll check₂ servers)[j]? = (checkAll check servers)[j]?) := by
  refine ⟨by simp [checkAll], ?_, ?_, ?_⟩
  · intro i
    simp [checkAll, List.getElem?_map]
  · intro s e he
    simp [checkServer, he]
  · intro check₂ j s hj hagree
    simp [checkAll, List.getElem?_map, hj, checkServer_ext hagree]

/-- Concrete servers for the C3 witness. -/
def w3a : Server := ⟨"a", "ping", "ha", none, ""⟩

/-- Concrete servers for the C3 witness. -/
def w3b : Server := ⟨"b", "ping", "hb", none, ""⟩

/-- Concrete servers for the C3 witness. -/
def w3c : Server := ⟨"c", "ping", "hc", none, ""⟩

/-- A check in which the middle target raises. -/
def w3check : Server → Except String Bool :=
  fun s => if s.name = "b" then Except.error "boom" else Except.ok true

/-- The same check with the middle target behaving differently. -/
def w3check2 : Server → Except String Bool :=
  fun s => if s.name = "b" then Except.ok false else Except.ok true

theorem c3_check_all_fault_isolation_witness :
    (checkAll w3check [w3a, w3b, w3c]).length = 3 ∧
    checkServer w3check w3b = { name := w3b.name
                                host := w3b.host
                                ctype := pyLower w3b.ctype
                                online := false
                                error := some "boom" } ∧
    (checkAll w3check2 [w3a, w3b, w3c])[2]? =
      (checkAll w3check [w3a, w3b, w3c])[2]? := by
  have h := c3_check_all_fault_isolation w3check [w3a, w3b, w3c]
  refine ⟨h.1, h.2.2.1 w3b "boom" rfl, ?_⟩
  exact h.2.2.2 w3check2 2 w3c rfl rfl

/-- C7: for an http or https target with a configured URL, the handler
(_check_server dispatching to _check_http, handler.py:52-56 and 79-87)
reports online exactly when a response arrives with status code
strictly below 500, and a transport-level exception is absorbed into
online false with no error recorded and nothing propagated. -/
theorem c7_http_status_verdict (env : Env) (s : Server)
    (hct : pyLower s.ctype = "http" ∨ pyLower s.ctype = "https") (hurl : s.url ≠ "") :
    ((checkServer (dispatch env) s).online = true ↔
      ∃ code, env.httpGet s.url = Except.ok code ∧ code < 500) ∧
    (∀ e, env.httpGet s.url = Except.error e →
      (checkServer (dispatch env) s).online = false ∧
      (checkServer (dispatch env) s).error = none) := by
  have hurl2 : targetUrl (pyLower s.ctype) s.host s.port s.url = s.url := by
    unfold targetUrl
    cases s.port with
    | none => simp [hurl]
    | some p => by_cases hp : p ≠ 0 <;> simp [hurl, hp]
  have hon : (checkServer (dispatch env) s).online =
      checkHttp env.httpGet s.url := by
    simp only [checkServer, dispatch, if_pos hct, hurl2]
  have herr : (checkServer (dispatch env) s).error = none := by
    simp only [checkServer, dispatch, if_pos hct]
  constructor
  · rw [hon]
    unfold checkHttp
    rw [if_neg hurl]
    cases hg : env.httpGet s.url with
    | ok code =>
        simp only [decide_eq_true_eq]
        constructor
        · intro hc; exact ⟨code, rfl, hc⟩
        · rintro ⟨c, hc, hlt⟩
          cases Except.ok.injEq _ _ ▸ hc with
          | refl => exact hlt
    | error e =>
        simp only [Bool.false_eq_true, false_iff]
        rintro ⟨c, hc, -⟩
        exact Except.noConfusion hc
  · intro e he
    refine ⟨?_, herr⟩
    rw [hon]
    unfold checkHttp
    rw [if_neg hurl, he]

/-- Concrete http target for the C7 witness. -/
def w7 : Server := ⟨"site", "http", "h", none, "http://h/health"⟩

/-- Environment for the C7 witness: the URL answers 404. -/
def e7 : Env := ⟨fun _ => Except.error "unused", fun _ => Except.ok 404⟩

theorem c7_http_status_verdict_witness :
    (checkServer (dispatch e7) w7).online = true := by
  have h := c7_http_status_verdict e7 w7 (Or.inl (by decide)) (by decide)
  exact h.1.mpr ⟨404, rfl, by decide⟩

/-- C10: the delete, update and test actions (server_monitoring.py:
199-206, 216-219, 208-214) all reject a negative or out-of-range index
with the error dict Invalid server index, and on that path none of them
calls _save_servers, so the persisted list is untouched (the saved
component is none). -/
theorem c10_invalid_index_rejected (stored : List Server) (index : Int) (d : ReqData)
    (check : Server → Except String Bool)
    (hbad : index < 0 ∨ (stored.length : Int) ≤ index) :
    actionDeleteServer stored index = Except.ok ⟨Resp.err "Invalid server index", none⟩ ∧
    actionUpdateServer stored index d = Except.ok ⟨Resp.err "Invalid server index", none⟩ ∧
    actionTestServer check stored index = Except.ok ⟨Resp.err "Invalid server index", none⟩ := by
  refine ⟨?_, ?_, ?_⟩
  · simp only [actionDeleteServer, if_pos hbad]
  · simp only [actionUpdateServer, if_pos hbad]
  · simp only [actionTestServer, if_pos hbad]

theorem c10_invalid_index_rejected_witness :
    actionDeleteServer [w3a] 5 = Except.ok ⟨Resp.err "Invalid server index", none⟩ ∧
    actionUpdateServer [w3a] 5 { name := some "x" } =
      Except.ok ⟨Resp.err "Invalid server index", none⟩ ∧
    actionTestServer w3check [w3a] 5 =
      Except.ok ⟨Resp.err "Invalid server index", none⟩ :=
  c10_invalid_index_rejected [w3a] 5 { name := some "x" } w3check (by decide)

/-- C8: _load_servers (server_monitoring.py:275-287) degrades every bad
stored registry value to the empty list and is a total function — a
missing value falls back to the empty-array default, an empty string
short-circuits before parsing, a parse failure (the JSONDecodeError
branch of the loads oracle) is caught, and a parsed value that is not a
list is discarded. The hypothesis pins the oracle on the two-character
default literal only, where real json.loads returns the empty list. -/
theorem c8_load_tolerates_corruption (loads : String → Except String PyVal)
    (hl : loads "[]" = Except.ok (PyVal.plist [])) :
    loadServers loads none = [] ∧
    loadServers loads (some "") = [] ∧
    (∀ raw e, loads (stripQuotes raw) = Except.error e →
      loadServers loads (some raw) = []) ∧
    (∀ raw, loads (stripQuotes raw) = Except.ok PyVal.other →
      loadServers loads (some raw) = []) := by
  have hq : stripQuotes "[]" = "[]" := by decide
  refine ⟨?_, ?_, ?_, ?_⟩
  · simp [loadServers, hq, hl]
  · have hq0 : stripQuotes "" = "" := by decide
    simp [loadServers, hq0]
  · intro raw e he
    by_cases hr : stripQuotes raw = "" <;> simp [loadServers, hr, he]
  · intro raw ho
    by_cases hr : stripQuotes raw = "" <;> simp [loadServers, hr, ho]

/-- A stand-in json.loads for the C8 witness: it parses the empty-array
literal and rejects everything else. -/
def jsonStub : String → Except String PyVal :=
  fun s => if s = "[]" then Except.ok (PyVal.plist []) else Except.error "Expecting value"

theorem c8_load_tolerates_corruption_witness :
    loadServers jsonStub none = [] ∧ loadServers jsonStub (some "not json") = [] := by
  have h := c8_load_tolerates_corruption jsonStub rfl
  exact ⟨h.1, h.2.2.1 "not json" "Expecting value" rfl⟩

/-- C5: the add and update actions (server_monitoring.py:172-197 and
216-245) enforce the three field-validation rules identically, given a
non-blank name (name blank is rejected earlier with its own message in
both) and, for update, an in-range index (an out-of-range index is
rejected earlier): missing url for http or https, missing host for ping
or ssh with the type name upper-cased into the message, and a type
outside the four known ones. -/
theorem c5_validation_enforced_identically (stored : List Server) (index : Int)
    (d : ReqData) (hname : d.nameV ≠ "") (h0 : 0 ≤ index)
    (h1 : index < (stored.length : Int)) :
    ((d.typeV = "http" ∨ d.typeV = "https") → d.urlV = "" →
      actionAddServer stored d = Except.ok ⟨Resp.err "URL is required for HTTP(S)", none⟩ ∧
      actionUpdateServer stored index d =
        Except.ok ⟨Resp.err "URL is required for HTTP(S)", none⟩) ∧
    (d.typeV = "ping" → d.hostV = "" →
      actionAddServer stored d = Except.ok ⟨Resp.err "Host is required for PING", none⟩ ∧
      actionUpdateServer stored index d =
        Except.ok ⟨Resp.err "Host is required for PING", none⟩) ∧
    (d.typeV = "ssh" → d.hostV = "" →
      actionAddServer stored d = Except.ok ⟨Resp.err "Host is required for SSH", none⟩ ∧
      actionUpdateServer stored index d =
        Except.ok ⟨Resp.err "Host is required for SSH", none⟩) ∧
    ((d.typeV ≠ "ping" ∧ d.typeV ≠ "http" ∧ d.typeV ≠ "https" ∧ d.typeV ≠ "ssh") →
      actionAddServer stored d =
        Except.ok ⟨Resp.err "Type must be ping, http, https, or ssh", none⟩ ∧
      actionUpdateServer stored index d =
        Except.ok ⟨Resp.err "Type must be ping, http, https, or ssh", none⟩) := by
  have hidx : ¬(index < 0 ∨ (stored.length : Int) ≤ index) := by omega
  refine ⟨?_, ?_, ?_, ?_⟩
  · intro hct hurl
    constructor
    · simp only [actionAddServer, if_neg hname, if_pos (And.intro hct hurl)]
    · simp only [actionUpdateServer, if_neg hidx, if_neg hname,
        if_pos (And.intro hct hurl)]
  · intro hct hhost
    have hB : ¬((d.typeV = "http" ∨ d.typeV = "https") ∧ d.urlV = "") := by
      rw [hct]; rintro ⟨h | h, -⟩ <;> exact absurd h (by decide)
    constructor
    · simp only [actionAddServer, if_neg hname, if_neg hB,
        if_pos (And.intro (Or.inl hct) hhost)]
      rw [hct]; rfl
    · simp only [actionUpdateServer, if_neg hidx, if_neg hname, if_neg hB,
        if_pos (And.intro (Or.inl hct) hhost)]
      rw [hct]; rfl
  · intro hct hhost
    have hB : ¬((d.typeV = "http" ∨ d.typeV = "https") ∧ d.urlV = "") := by
      rw [hct]; rintro ⟨h | h, -⟩ <;> exact absurd h (by decide)
    constructor
    · simp only [actionAddServer, if_neg hname, if_neg hB,
        if_pos (And.intro (Or.inr hct) hhost)]
      rw [hct]; rfl
    · simp only [actionUpdateServer, if_neg hidx, if_neg hname, if_neg hB,
        if_pos (And.intro (Or.inr hct) hhost)]
      rw [hct]; rfl
  · intro htype
    have hB1 : ¬((d.typeV = "http" ∨ d.typeV = "https") ∧ d.urlV = "") := by
      rintro ⟨h | h, -⟩
      · exact htype.2.1 h
      · exact htype.2.2.1 h
    have hB2 : ¬((d.typeV = "ping" ∨ d.typeV = "ssh") ∧ d.hostV = "") := by
      rintro ⟨h | h, -⟩
      · exact htype.1 h
      · exact htype.2.2.2 h
    have hB3 : ¬(d.typeV = "ping" ∨ d.typeV = "http" ∨ d.typeV = "https" ∨ d.typeV = "ssh") := by
      rintro (h | h | h | h)
      · exact htype.1 h
      · exact htype.2.1 h
      · exact htype.2.2.1 h
      · exact htype.2.2.2 h
    constructor
    · simp only [actionAddServer, if_neg hname, if_neg hB1, if_neg hB2, if_pos hB3]
    · simp only [actionUpdateServer, if_neg hidx, if_neg hname, if_neg hB1,
        if_neg hB2, if_pos hB3]

/-- Request with an http type and no url, for the C5 witness. -/
def d5 : ReqData := { name := some "web", rtype := some "http" }

theorem c5_validation_enforced_identically_witness :
    actionAddServer [w3a] d5 = Except.ok ⟨Resp.err "URL is required for HTTP(S)", none⟩ ∧
    actionUpdateServer [w3a] 0 d5 =
      Except.ok ⟨Resp.err "URL is required for HTTP(S)", none⟩ :=
  (c5_validation_enforced_identically [w3a] 0 d5 (by decide) (by decide)
    (by decide)).1 (Or.inl (by decide)) (by decide)

/-- Failing input for C6: a well-formed add or update request whose port
field is the non-numeric string abc. Python int raises ValueError at
server_monitoring.py:190 and 238 with no enclosing try, so the action
raises instead of returning an error dict; the counterexample shows the
model landing in the exceptional branch. -/
def d6 : ReqData :=
  { name := some "a", rtype := some "ping", host := some "h", port := some "abc" }

theorem c6_unparsable_port_counterexample :
    actionAddServer [] d6 = Except.error "invalid literal for int() with base 10: abc" ∧
    actionUpdateServer [w3a] 0 d6 =
      Except.error "invalid literal for int() with base 10: abc" :=
  ⟨rfl, rfl⟩

/-- C6 amended: a request that passes validation but carries a
non-empty, non-integer port makes both actions raise an uncaught
ValueError out of the action (the exceptional branch); the port is not
silently dropped, and since the action never reaches _save_servers no
save occurs — but no structured error result is returned either. -/
theorem c6_unparsable_port_raises (stored : List Server) (index : Int) (d : ReqData)
    (hname : d.nameV ≠ "")
    (hB1 : ¬((d.typeV = "http" ∨ d.typeV = "https") ∧ d.urlV = ""))
    (hB2 : ¬((d.typeV = "ping" ∨ d.typeV = "ssh") ∧ d.hostV = ""))
    (htype : d.typeV = "ping" ∨ d.typeV = "http" ∨ d.typeV = "https" ∨ d.typeV = "ssh")
    (h0 : 0 ≤ index) (h1 : index < (stored.length : Int))
    (hport : d.portV ≠ "") (hbad : pyInt d.portV = none) :
    actionAddServer stored d =
      Except.error ("invalid literal for int() with base 10: " ++ d.portV) ∧
    actionUpdateServer stored index d =
      Except.error ("invalid literal for int() with base 10: " ++ d.portV) := by
  have hidx : ¬(index < 0 ∨ (stored.length : Int) ≤ index) := by omega
  have hbuild : buildServer d.nameV d.typeV d.hostV d.portV d.urlV =
      Except.error ("invalid literal for int() with base 10: " ++ d.portV) := by
    simp only [buildServer, if_pos hport, hbad]
  constructor
  · simp only [actionAddServer, if_neg hname, if_neg hB1, if_neg hB2,
      if_neg (not_not_intro htype), hbuild]
  · simp only [actionUpdateServer, if_neg hidx, if_neg hname, if_neg hB1,
      if_neg hB2, if_neg (not_not_intro htype), hbuild]

theorem c6_unparsable_port_raises_witness :
    actionAddServer [w3a] d6 =
      Except.error ("invalid literal for int() with base 10: " ++ d6.portV) ∧
    actionUpdateServer [w3a] 0 d6 =
      Except.error ("invalid literal for int() with base 10: " ++ d6.portV) :=
  c6_unparsable_port_raises [w3a] 0 d6 (by decide)
    (by rintro ⟨h | h, -⟩ <;> exact absurd h (by decide))
    (by rintro ⟨-, h⟩; exact absurd h (by decide))
    (Or.inl (by decide)) (by decide) (by decide) (by decide) (by decide)

/-- A non-empty string stays non-empty under the lower-casing model. -/
theorem pyLower_ne_empty {s : String} (h : s ≠ "") : pyLower s ≠ "" := by
  intro hc
  apply h
  have hd := congrArg String.toList hc
  rw [show (pyLower s).toList = s.toList.map asciiLower from rfl] at hd
  rw [show ("" : String).toList = ([] : List Char) from rfl] at hd
  have hnil : s.toList = [] := List.map_eq_nil_iff.mp hd
  have hs := congrArg String.mk hnil
  rw [show String.mk s.toList = s from by cases s; rfl] at hs
  exact hs

/-- C9: the selection loop of handle (handler.py:19-32) checks exactly
the first server, in registry order, whose name occurs case-insensitively
as a substring of the query text, and falls back to checking every
server when no name matches. The hypothesis that registry names are
non-blank is the data-model invariant of the spec; the code skips a
blank name explicitly. -/
theorem c9_query_routing (text : String) (servers : List Server)
    (hne : ∀ s ∈ servers, s.name ≠ "") :
    (handleRoute text servers = HandleAction.all ↔
      ∀ s ∈ servers, pyIn (pyLower s.name) (pyLower text) = false) ∧
    (∀ s : Server, handleRoute text servers = HandleAction.single s ↔
      ∃ pre post, servers = pre ++ s :: post ∧
        pyIn (pyLower s.name) (pyLower text) = true ∧
        ∀ t ∈ pre, pyIn (pyLower t.name) (pyLower text) = false) := by
  induction servers with
  | nil =>
    refine ⟨by simp [handleRoute], ?_⟩
    intro s
    simp only [handleRoute]
    constructor
    · intro h; exact absurd h (by simp)
    · rintro ⟨pre, post, hsplit, -, -⟩
      exact absurd hsplit.symm (by simp)
  | cons a rest ih =>
    have hna : a.name ≠ "" := hne a (by simp)
    obtain ⟨ih1, ih2⟩ := ih (fun s hs => hne s (by simp [hs]))
    by_cases hm : pyIn (pyLower a.name) (pyLower text) = true
    · have hr : handleRoute text (a :: rest) = HandleAction.single a := by
        simp only [handleRoute]
        rw [if_pos ⟨pyLower_ne_empty hna, hm⟩]
      constructor
      · rw [hr]
        constructor
        · intro h; exact absurd h (by simp)
        · intro hAll
          have := hAll a (by simp)
          rw [hm] at this
          exact absurd this (by decide)
      · intro s
        rw [hr]
        constructor
        · intro h
          have hsa : a = s := by
            injection h
          refine ⟨[], rest, by simp [hsa], ?_, by intro t ht; simp at ht⟩
          rw [← hsa]; exact hm
        · rintro ⟨pre, post, hsplit, hmatch, hpre⟩
          cases pre with
          | nil =>
            simp only [List.nil_append, List.cons.injEq] at hsplit
            rw [hsplit.1]
          | cons p pre2 =>
            simp only [List.cons_append, List.cons.injEq] at hsplit
            have hpf := hpre p (by simp)
            rw [← hsplit.1] at hpf
            rw [hpf] at hm
            exact absurd hm (by decide)
    · have hmf : pyIn (pyLower a.name) (pyLower text) = false := by
        cases hx : pyIn (pyLower a.name) (pyLower text)
        · rfl
        · exact absurd hx hm
      have hr : handleRoute text (a :: rest) = handleRoute text rest := by
        simp only [handleRoute]
        rw [if_neg]
        rintro ⟨-, h⟩
        rw [hmf] at h
        exact absurd h (by decide)
      constructor
      · rw [hr, ih1]
        constructor
        · intro h s hs
          rcases List.mem_cons.mp hs with h1 | h2
          · rw [h1]; exact hmf
          · exact h s h2
        · intro h s hs
          exact h s (by simp [hs])
      · intro s
        rw [hr, ih2 s]
        constructor
        · rintro ⟨pre, post, hsplit, hm2, hpre⟩
          refine ⟨a :: pre, post, by simp [hsplit], hm2, ?_⟩
          intro t ht
          rcases List.mem_cons.mp ht with h1 | h2
          · rw [h1]; exact hmf
          · exact hpre t h2
        · rintro ⟨pre, post, hsplit, hm2, hpre⟩
          cases pre with
          | nil =>
            simp only [List.nil_append, List.cons.injEq] at hsplit
            rw [← hsplit.1] at hm2
            rw [hm2] at hmf
            exact absurd hmf (by decide)
          | cons p pre2 =>
            simp only [List.cons_append, List.cons.injEq] at hsplit
            exact ⟨pre2, post, hsplit.2, hm2, fun t ht => hpre t (by simp [ht])⟩

/-- Servers for the C9 witness. -/
def w9db : Server := ⟨"db", "ping", "h1", none, ""⟩

/-- Servers for the C9 witness. -/
def w9web : Server := ⟨"WEB", "ping", "h2", none, ""⟩

theorem c9_query_routing_witness :
    handleRoute "is the Web up" [w9db, w9web] = HandleAction.single w9web := by
  have h := c9_query_routing "is the Web up" [w9db, w9web]
    (by intro s hs; rcases List.mem_cons.mp hs with h1 | h2
        · rw [h1]; decide
        · simp at h2; rw [h2]; decide)
  exact (h.2 w9web).mpr ⟨[w9db], [], rfl, by decide, by
    intro t ht
    simp at ht
    rw [ht]; decide⟩

/-- Storing a state changes the lookup at that name only. -/
theorem lookupState_setState (st : States) (n m : String) (b : Bool) :
    lookupState (setState st n b) m = if n = m then some b else lookupState st m := by
  induction st with
  | nil =>
    by_cases hnm : n = m <;> simp [setState, lookupState, hnm]
  | cons kv rest ih =>
    obtain ⟨k, c⟩ := kv
    by_cases hk : k = n
    · subst hk
      simp only [setState, if_pos rfl, lookupState]
      by_cases hkm : k = m <;> simp [hkm]
    · simp only [setState, if_neg hk, lookupState]
      by_cases hkm : k = m
      · have hnm : n ≠ m := fun h => hk (hkm.trans h.symm)
        simp [hkm, hnm]
      · simp [hkm, ih]

/-- The alerts of one pass over the results, from an arbitrary prior
store: with pairwise-distinct result names, exactly the results whose
stored prior state exists and differs from the current verdict
contribute an event, in result order. -/
theorem getAlertsAux_fst (rs : List CheckResult) (st : States)
    (hnd : (rs.map CheckResult.name).Nodup) :
    (getAlertsAux st rs).1 = rs.filterMap (alertOf st) := by
  induction rs generalizing st with
  | nil => simp [getAlertsAux]
  | cons r rs ih =>
    rw [List.map_cons, List.nodup_cons] at hnd
    have hcons := hnd
    have hcong : rs.filterMap (alertOf (setState st r.name r.online)) =
        rs.filterMap (alertOf st) := by
      apply List.filterMap_congr
      intro x hx
      have hxname : x.name ≠ r.name := by
        intro h
        exact hcons.1 (h ▸ List.mem_map_of_mem CheckResult.name hx)
      have hlook : lookupState (setState st r.name r.online) x.name =
          lookupState st x.name := by
        rw [lookupState_setState]
        exact if_neg (fun h => hxname h.symm)
      simp [alertOf, hlook]
    simp only [getAlertsAux]
    rw [ih _ hcons.2, hcong]
    cases halert : alertOf st r <;> simp [List.filterMap_cons, halert]

/-- The results of a pass carry the names of their servers, in order. -/
theorem checkAll_map_name (check : Server → Except String Bool) (servers : List Server) :
    (checkAll check servers).map CheckResult.name = servers.map Server.name := by
  rw [checkAll, List.map_map]
  have hfun : (CheckResult.name ∘ checkServer check) = Server.name :=
    funext (checkServer_name check)
  rw [hfun]

/-- C1: get_alerts emits an event for a target exactly when a stored
prior state exists under the target name and differs from the current
online verdict of the pass — the first observation of a name emits
nothing and only records the baseline, a verdict equal to the stored
state emits nothing, and a pass in which nothing changed returns the
empty list. Stated for an arbitrary prior store, which covers every
sequence of passes; the registry names are assumed pairwise distinct,
the uniqueness invariant the spec places on the registry. -/
theorem c1_alerts_only_on_transition (env : Env) (h : Handler)
    (hnd : (h.servers.map Server.name).Nodup) :
    (getAlerts env h).1 = h.servers.filterMap (fun t =>
      match lookupState h.states t.name with
      | none => none
      | some p =>
          if p = (checkServer (dispatch env) t).online then none
          else some { name := t.name
                      previous := p
                      current := (checkServer (dispatch env) t).online
                      message := mkMessage t.name ((checkServer (dispatch env) t).online) }) ∧
    ((∀ t ∈ h.servers, lookupState h.states t.name = none ∨
        lookupState h.states t.name = some ((checkServer (dispatch env) t).online)) →
      (getAlerts env h).1 = []) := by
  have hnd2 : ((checkAll (dispatch env) h.servers).map CheckResult.name).Nodup := by
    rw [checkAll_map_name]; exact hnd
  have hfst : (getAlerts env h).1 =
      (checkAll (dispatch env) h.servers).filterMap (alertOf h.states) := by
    rw [show (getAlerts env h).1 =
        (getAlertsAux h.states (checkAll (dispatch env) h.servers)).1 from rfl]
    exact getAlertsAux_fst _ _ hnd2
  have hmain : (getAlerts env h).1 = h.servers.filterMap (fun t =>
      match lookupState h.states t.name with
      | none => none
      | some p =>
          if p = (checkServer (dispatch env) t).online then none
          else some { name := t.name
                      previous := p
                      current := (checkServer (dispatch env) t).online
                      message := mkMessage t.name ((checkServer (dispatch env) t).online) }) := by
    rw [hfst, checkAll, List.filterMap_map]
    apply List.filterMap_congr
    intro t ht
    simp [Function.comp, alertOf, checkServer_name]
  refine ⟨hmain, ?_⟩
  intro hstable
  rw [hmain]
  apply List.filterMap_eq_nil_iff.mpr
  intro t ht
  rcases hstable t ht with h0 | h0 <;> simp [h0]

/-- Servers for the C1 witness. -/
def w1a : Server := ⟨"a", "ping", "h1", none, ""⟩

/-- Servers for the C1 witness. -/
def w1b : Server := ⟨"b", "ping", "h2", none, ""⟩

/-- Environment for the C1 witness: host h1 stops answering ping (exit
code 1), every other host answers. -/
def e1w : Env :=
  ⟨fun host => if host = "h1" then Except.ok 1 else Except.ok 0,
   fun _ => Except.error "x"⟩

/-- Handler state for the C1 witness: target a was last seen online,
target b has never been observed. -/
def h1w : Handler := ⟨[w1a, w1b], [("a", true)]⟩

theorem c1_alerts_only_on_transition_witness :
    (getAlerts e1w h1w).1 =
      [{ name := "a", previous := true, current := false, message := "a went offline" }] := by
  have h := c1_alerts_only_on_transition e1w h1w (by decide)
  rw [h.1]
  rfl

/-- C4: update_servers swaps in the new registry while leaving the
stored per-name states untouched, so a target that keeps its name keeps
its baseline (no first-sight re-baseline) and, when its online verdict
is unchanged, the next pass emits no alert for it. -/
theorem c4_update_preserves_states (env : Env) (h : Handler) (ts : List Server)
    (t : Server) (hmem : t ∈ ts) (hnd : (ts.map Server.name).Nodup) (p : Bool)
    (hp : lookupState h.states t.name = some p)
    (hsame : (checkServer (dispatch env) t).online = p) :
    (update_servers h ts).servers = ts ∧
    (update_servers h ts).states = h.states ∧
    lookupState (update_servers h ts).states t.name = some p ∧
    ∀ e ∈ (getAlerts env (update_servers h ts)).1, e.name ≠ t.name := by
  refine ⟨rfl, rfl, hp, ?_⟩
  intro e he hename
  have hnd2 : ((checkAll (dispatch env) ts).map CheckResult.name).Nodup := by
    rw [checkAll_map_name]; exact hnd
  rw [show (getAlerts env (update_servers h ts)).1 =
      (getAlertsAux h.states (checkAll (dispatch env) ts)).1 from rfl,
    getAlertsAux_fst _ _ hnd2] at he
  obtain ⟨r, hr, halert⟩ := List.mem_filterMap.mp he
  obtain ⟨u, hu, hru⟩ := List.mem_map.mp hr
  have hern : e.name = r.name := by
    cases hl : lookupState h.states r.name with
    | none =>
      simp only [alertOf, hl] at halert
      exact Option.noConfusion halert
    | some q =>
      simp only [alertOf, hl] at halert
      by_cases hq : q = r.online
      · rw [if_pos hq] at halert
        exact Option.noConfusion halert
      · rw [if_neg hq] at halert
        injection halert with h2
        rw [← h2]
  have hun : r.name = u.name := by rw [← hru, checkServer_name]
  have hut : u = t := by
    apply List.inj_on_of_nodup_map hnd hu hmem
    rw [← hun, ← hern, hename]
  subst hut
  rw [← hru] at halert
  simp [alertOf, checkServer_name, hp, hsame] at halert

/-- Replacement registry entry for the C4 witness: the target named
alpha keeps its name (its port changes from absent to 222). -/
def w4t : Server := ⟨"alpha", "ping", "h4", some 222, ""⟩

/-- Environment for the C4 witness: every ping answers. -/
def e4w : Env := ⟨fun _ => Except.ok 0, fun _ => Except.error "x"⟩

/-- Handler state for the C4 witness: alpha was last seen online. -/
def h4w : Handler := ⟨[⟨"alpha", "ping", "h4", none, ""⟩], [("alpha", true)]⟩

theorem c4_update_preserves_states_witness :
    (update_servers h4w [w4t]).servers = [w4t] ∧
    (update_servers h4w [w4t]).states = h4w.states ∧
    lookupState (update_servers h4w [w4t]).states w4t.name = some true ∧
    ∀ e ∈ (getAlerts e4w (update_servers h4w [w4t])).1, e.name ≠ w4t.name :=
  c4_update_preserves_states e4w h4w [w4t] w4t (by simp) (by decide) true rfl rfl

end Mon
